import Mathlib

/-!
Shallow embedding of the persistent-volume transcoder
(`src/types/persistentvolume.go`).

Conventions of the embedding:
* Go byte slices holding JSON documents are modelled as already-parsed
  `Json` values; `json.Unmarshal(data, &obj)` for a `map[string]interface\x7bInterface\x7d`
  target is modelled by matching on `Json.obj`.
* Go maps `map[string]interface\x7bInterface\x7d` are modelled as association lists
  (`Obj`).  Go map assignment `m[k] = v` appends the pair, and lookup
  (`Obj.get`) returns the value of the LAST matching pair, so that later
  assignments overwrite earlier ones exactly as in Go.  Two objects are
  compared through `Obj.get`, which ignores key order, matching the fact
  that Go maps are unordered.
* Fallible Go functions returning `error` are modelled with `Except Err`;
  functions that mutate their receiver before possibly failing
  (`PersistentVolumeSource.Unmarshal` and the variant decoders) are
  modelled by explicit state passing, returning the final receiver state
  together with an optional error.
* `strings.Split` / `strings.Join` are modelled by `goSplit` / `goJoin`
  on `List Char` (and `goSplitS` / `goJoinS` on `String`), reproducing the
  Go semantics, in particular `strings.Split("", sep) = [""]`.
-/

/-- Generic JSON value, the model of Go `interface\x7bInterface\x7d` holding decoded JSON. -/
inductive Json where
  | null : Json
  | bool : Bool → Json
  | num : Int → Json
  | str : String → Json
  | arr : List Json → Json
  | obj : List (String × Json) → Json

/-- Flat JSON object: the model of Go `map[string]interface\x7bInterface\x7d`. -/
abbrev Obj := List (String × Json)

/-- Lookup in an association-list object.  The LAST binding for a key wins,
matching Go map semantics where later assignments overwrite earlier ones. -/
def Obj.get : Obj → String → Option Json
  | [], _ => none
  | (k', v) :: rest, k =>
    match Obj.get rest k with
    | some r => some r
    | none => if k' = k then some v else none

/-- Go map assignment `m[k] = v`: append the binding (later bindings win on `Obj.get`). -/
def Obj.set (o : Obj) (k : String) (v : Json) : Obj := o ++ [(k, v)]

/-- Left-biased choice on optional JSON values, used to state `Obj.get` over `++`. -/
def oor : Option Json → Option Json → Option Json
  | some v, _ => some v
  | none, y => y

/-- Go `strings.Split(s, sep)` for a one-character separator.
Always returns at least one (possibly empty) piece; in particular
`goSplit sep [] = [[]]`, matching `strings.Split("", sep) = [""]`. -/
def goSplit (sep : Char) : List Char → List (List Char)
  | [] => [[]]
  | c :: rest =>
    match goSplit sep rest with
    | [] => [[]]
    | t :: ts => if c = sep then [] :: t :: ts else (c :: t) :: ts

/-- Go `strings.Join(l, sep)` for a one-character separator. -/
def goJoin (sep : Char) : List (List Char) → List Char
  | [] => []
  | [x] => x
  | x :: y :: xs => x ++ sep :: goJoin sep (y :: xs)

/-- Go `strings.Split` on `String` values. -/
def goSplitS (sep : Char) (s : String) : List String :=
  (goSplit sep s.data).map String.mk

/-- Go `strings.Join` on `String` values. -/
def goJoinS (sep : Char) (l : List String) : String :=
  String.mk (goJoin sep (l.map String.data))

/-- Modelled from the spec (section 7): the error constructors of the
`util` package (`InvalidInstanceError(f)`, `InvalidValueErrorf`,
`InvalidValueForTypeErrorf`), which live outside `src/`.  Each error is a
value carrying a kind and a human-readable message; `goJsonError` stands
for errors produced by Go `encoding/json` itself during structural
unmarshalling. -/
inductive ErrKind where
  | invalidInstance : ErrKind
  | invalidValue : ErrKind
  | invalidValueForType : ErrKind
  | goJsonError : ErrKind
deriving DecidableEq

/-- Structured error value: a kind plus the formatted message.
`msg` plays the role of Go `err.Error()`. -/
structure Err where
  kind : ErrKind
  msg : String
deriving DecidableEq

/-- Modelled from the spec (section 6): the access-mode enum constants of
`k8s.io/api/core/v1`, which live outside `src/`.  They are plain strings. -/
def v1ReadOnlyMany : String := "ReadOnlyMany"

/-- Modelled from the spec (section 6): see `v1ReadOnlyMany`. -/
def v1ReadWriteMany : String := "ReadWriteMany"

/-- Modelled from the spec (section 6): see `v1ReadOnlyMany`. -/
def v1ReadWriteOnce : String := "ReadWriteOnce"

/-- `AccessModes` struct: an ordered list of access-mode enum values
(modelled as strings, see `v1ReadOnlyMany`). -/
structure AccessModes where
  modes : List String
deriving DecidableEq

/-- The per-element switch of `AccessModes.ToString`: maps each mode to its
compact symbol, failing with `util.InvalidInstanceError(mode)` on an
unknown value.  Processes elements left to right, stopping at the first
failure, like the Go loop. -/
def modeSyms : List String → Except Err (List String)
  | [] => .ok []
  | mode :: rest =>
    let sym? : Option String :=
      if mode = v1ReadOnlyMany then some "ro"
      else if mode = v1ReadWriteMany then some "rw"
      else if mode = v1ReadWriteOnce then some "rw-once"
      else none
    match sym? with
    | none => .error ⟨.invalidInstance, "invalid instance (" ++ mode ++ ")"⟩
    | some sym =>
      match modeSyms rest with
      | .error e => .error e
      | .ok syms => .ok (sym :: syms)

/-- `AccessModes.ToString`: empty list gives the empty string; otherwise
each mode is mapped to its symbol and the symbols are comma-joined.
The Go nil-receiver check is handled at the call sites (a nil
`*AccessModes` is `none` there). -/
def AccessModes.toString (a : AccessModes) : Except Err String :=
  if a.modes = [] then .ok ""
  else
    match modeSyms a.modes with
    | .error e => .error e
    | .ok syms => .ok (goJoinS ',' syms)

/-- The per-token switch of `AccessModes.InitFromString`: parses each
comma-split token, failing with
`util.InvalidValueErrorf(a, "couldn\x27t parse (%s)", s)` on an unknown
token (the message carries the whole original string `s`). -/
def parseModes (s : String) : List String → Except Err (List String)
  | [] => .ok []
  | tok :: rest =>
    let mode? : Option String :=
      if tok = "ro" then some v1ReadOnlyMany
      else if tok = "rw" then some v1ReadWriteMany
      else if tok = "rw-once" then some v1ReadWriteOnce
      else none
    match mode? with
    | none => .error ⟨.invalidValue, "couldn\x27t parse (" ++ s ++ ")"⟩
    | some mode =>
      match parseModes s rest with
      | .error e => .error e
      | .ok ms => .ok (mode :: ms)

/-- `AccessModes.InitFromString`: splits on commas and parses each token.
The `len(modes) == 0` branch of the Go code is kept although it is dead:
`strings.Split` never returns an empty slice, so the empty input string
reaches the token loop as the single token `""`.  Returns the parsed mode
list (the final value of the receiver field `a.Modes`). -/
def AccessModes.initFromString (s : String) : Except Err (List String) :=
  let toks := goSplitS ',' s
  if toks = [] then .ok []
  else parseModes s toks

/-- `AccessModes.UnmarshalJSON`: the value must unmarshal into a Go
string.  A JSON string yields itself, JSON `null` leaves the string
zero-valued (`""`) without error, anything else is a `json` type error
wrapped as `util.InvalidValueForTypeErrorf`.  Then `InitFromString`. -/
def AccessModes.unmarshalJSON (j : Json) : Except Err AccessModes :=
  let s? : Option String :=
    match j with
    | .str s => some s
    | .null => some ""
    | _ => none
  match s? with
  | none => .error ⟨.invalidValueForType, "couldn\x27t unmarshal from JSON"⟩
  | some s =>
    match AccessModes.initFromString s with
    | .error e => .error e
    | .ok modes => .ok ⟨modes⟩

/-- Modelled from the spec (sections 3 and 4.2): the intermediate result of
a variant encode — a type tag, a list of selector tokens (to be
colon-joined into `vol_id`), and a bag of extra top-level fields.  The
`MarshalledVolume` type itself lives outside `src/`; its three fields are
exactly the ones `PersistentVolumeSource.MarshalJSON` reads. -/
structure MarshalledVolume where
  type : String
  selector : List String
  extraFields : Obj

/-- Modelled from the spec (section 8 concrete scenario): the registered
type tag of the host-path variant. -/
def VolumeTypeHostPath : String := "hostpath"

/-- Modelled from the spec (section 4.2): the registered type tag of the
cloud-disk (GCE persistent disk) variant; the constant lives outside
`src/`, any tag distinct from the other two is faithful. -/
def VolumeTypeGcePD : String := "gce_pd"

/-- Modelled from the spec (section 4.2): the registered type tag of the
block-storage (AWS EBS) variant; see `VolumeTypeGcePD`. -/
def VolumeTypeAwsEBS : String := "aws_ebs"

/-- Modelled from the spec (sections 4.2 and 6): the GCE-PD variant, an
external collaborator outside `src/`.  It carries a disk name (the single
selector token) and an optional extra field surfaced at the top level
under the key `"fs"`. -/
structure GcePDVolume where
  pdName : String
  fs : Option String
deriving DecidableEq

/-- Modelled from the spec (sections 4.2 and 6): the AWS-EBS variant, an
external collaborator outside `src/`; it carries the volume id as its
single selector token. -/
structure AwsEBSVolume where
  volumeId : String
deriving DecidableEq

/-- Modelled from the spec (sections 4.2, 6 and 8): the host-path variant,
an external collaborator outside `src/`; it carries the path as its single
selector token (`vol_id "/data"` decodes to path `/data`). -/
structure HostPathVolume where
  path : String
deriving DecidableEq

/-- `PersistentVolumeSource` struct: three independently-nullable arms. -/
structure PersistentVolumeSource where
  gcePD : Option GcePDVolume
  awsEBS : Option AwsEBSVolume
  hostPath : Option HostPathVolume
deriving DecidableEq

/-- The extra-field bag surfaced by the GCE-PD variant encode: the
optional `"fs"` binding. -/
def gceExtras : Option String → Obj
  | none => []
  | some f => [("fs", Json.str f)]

/-- Modelled from the spec (section 4.2): `GcePDVolume.Marshal` — tag,
one selector token, and the optional `"fs"` extra field. -/
def GcePDVolume.marshal (g : GcePDVolume) : MarshalledVolume :=
  ⟨VolumeTypeGcePD, [g.pdName], gceExtras g.fs⟩

/-- Modelled from the spec (section 4.2): `AwsEBSVolume.Marshal` — tag and
one selector token, no extra fields. -/
def AwsEBSVolume.marshal (a : AwsEBSVolume) : MarshalledVolume :=
  ⟨VolumeTypeAwsEBS, [a.volumeId], []⟩

/-- Modelled from the spec (sections 4.2 and 8): `HostPathVolume.Marshal`
— tag and the path as the single selector token, no extra fields. -/
def HostPathVolume.marshal (h : HostPathVolume) : MarshalledVolume :=
  ⟨VolumeTypeHostPath, [h.path], []⟩

/-- Modelled from the spec (section 4.2): `GcePDVolume.Unmarshal(obj,
selector)`.  The receiver is mutated field by field (state passing), so a
failure can leave it partially populated: the disk name is taken from the
single selector token (failing if the token count differs), then the
optional `"fs"` extra field is read from the flat object (failing on a
non-string value, after the name was already stored). -/
def GcePDVolume.unmarshal (g : GcePDVolume) (obj : Obj) (selector : List String) :
    GcePDVolume × Option Err :=
  match selector with
  | [pd] =>
    let g := { g with pdName := pd }
    match Obj.get obj "fs" with
    | none => (g, none)
    | some (Json.str f) => ({ g with fs := some f }, none)
    | some _ => (g, some ⟨.invalidValue, "expected string for key \x22fs\x22"⟩)
  | _ => (g, some ⟨.invalidValue, "expected exactly one selector segment for gce_pd"⟩)

/-- Modelled from the spec (section 4.2): `AwsEBSVolume.Unmarshal(obj,
selector)` — the volume id is the single selector token. -/
def AwsEBSVolume.unmarshal (a : AwsEBSVolume) (_obj : Obj) (selector : List String) :
    AwsEBSVolume × Option Err :=
  match selector with
  | [vid] => ({ a with volumeId := vid }, none)
  | _ => (a, some ⟨.invalidValue, "expected exactly one selector segment for aws_ebs"⟩)

/-- Modelled from the spec (sections 4.2 and 8): `HostPathVolume.Unmarshal(selector)`
— the path is the single selector token.  Note the Go signature takes only
the selector, not the flat object. -/
def HostPathVolume.unmarshal (h : HostPathVolume) (selector : List String) :
    HostPathVolume × Option Err :=
  match selector with
  | [p] => ({ h with path := p }, none)
  | _ => (h, some ⟨.invalidValue, "expected exactly one selector segment for hostpath"⟩)

/-- `PersistentVolumeSource.Unmarshal`: tag dispatch.  For a registered
tag the matching arm is first set to a freshly allocated zero variant and
then populated by the variant decoder — on a decoder failure the arm
remains set to the (possibly partially populated) variant while the error
is returned, exactly like the Go pointer assignment
`v.GcePD = &GcePDVolume\x7b\x7d` followed by `v.GcePD.Unmarshal(...)`.
An unregistered tag leaves the receiver unchanged and fails with
`util.InvalidValueErrorf(volType, "unsupported volume type (%s)", volType)`. -/
def PersistentVolumeSource.unmarshal (v : PersistentVolumeSource) (obj : Obj)
    (volType : String) (selector : List String) : PersistentVolumeSource × Option Err :=
  if volType = VolumeTypeGcePD then
    let (g, e) := GcePDVolume.unmarshal ⟨"", none⟩ obj selector
    ({ v with gcePD := some g }, e)
  else if volType = VolumeTypeAwsEBS then
    let (a, e) := AwsEBSVolume.unmarshal ⟨""⟩ obj selector
    ({ v with awsEBS := some a }, e)
  else if volType = VolumeTypeHostPath then
    let (h, e) := HostPathVolume.unmarshal ⟨""⟩ selector
    ({ v with hostPath := some h }, e)
  else
    (v, some ⟨.invalidValue, "unsupported volume type (" ++ volType ++ ")"⟩)

/-- Modelled from the spec (section 4.3, step 2): `util.GetStringEntry`
(outside `src/`) — reading the required type-tag field, where absence or a
non-string value fails with an error naming the field. -/
def getStringEntry (o : Obj) (k : String) : Except Err String :=
  match Obj.get o k with
  | some (Json.str s) => .ok s
  | some _ => .error ⟨.invalidValue, "missing or invalid field (" ++ k ++ ")"⟩
  | none => .error ⟨.invalidValue, "missing or invalid field (" ++ k ++ ")"⟩

/-- `PersistentVolumeSource.UnmarshalJSON`: requires a JSON object;
reads `"vol_id"` (optional, must be a string, split on colons into the
selector) BEFORE reading the required `"vol_type"` tag via
`GetStringEntry`; then dispatches through `Unmarshal` starting from the
zero-valued receiver (its state inside `PersistentVolume.UnmarshalJSON`). -/
def PersistentVolumeSource.unmarshalJSON (data : Json) : Except Err PersistentVolumeSource :=
  match data with
  | .obj o =>
    let selRes : Except Err (List String) :=
      match Obj.get o "vol_id" with
      | none => .ok []
      | some (Json.str s) => .ok (goSplitS ':' s)
      | some _ => .error ⟨.invalidValue, "expected string for key \x22vol_id\x22"⟩
    match selRes with
    | .error e => .error e
    | .ok selector =>
      match getStringEntry o "vol_type" with
      | .error e => .error e
      | .ok volType =>
        match PersistentVolumeSource.unmarshal ⟨none, none, none⟩ o volType selector with
        | (v, none) => .ok v
        | (_, some e) => .error e
  | _ => .error ⟨.invalidValue, "expected dictionary for persistent volume"⟩

/-- `PersistentVolumeSource.MarshalJSON`: each arm is checked in the fixed
order GcePD, AwsEBS, HostPath, each non-nil arm OVERWRITING the previously
selected `marshalledVolume` (so the last non-nil arm wins).  If no arm is
set the encode fails with `util.InvalidInstanceErrorf(v, "empty volume
definition")`.  Otherwise the output object starts from the extra fields,
the tag is stored under `"vol_type"`, and the colon-joined selector under
`"vol_id"` only when the selector is non-empty.  The modelled variant
encoders are total, so the Go `err` overwriting chain carries no error. -/
def PersistentVolumeSource.marshalJSON (v : PersistentVolumeSource) : Except Err Obj :=
  let mv : Option MarshalledVolume := none
  let mv : Option MarshalledVolume :=
    match v.gcePD with
    | some g => some g.marshal
    | none => mv
  let mv : Option MarshalledVolume :=
    match v.awsEBS with
    | some a => some a.marshal
    | none => mv
  let mv : Option MarshalledVolume :=
    match v.hostPath with
    | some h => some h.marshal
    | none => mv
  match mv with
  | none => .error ⟨.invalidInstance, "empty volume definition"⟩
  | some m =>
    let obj := m.extraFields
    let obj := Obj.set obj "vol_type" (Json.str m.type)
    let obj := if m.selector.length > 0 then Obj.set obj "vol_id" (Json.str (goJoinS ':' m.selector)) else obj
    .ok obj

/-- `PersistentVolumeMeta` struct.  String fields carry the
`json:"...,omitempty"` tags of the source; `labels` and `annotations`
model `map[string]string` as ordered association lists (nil and empty maps
coincide, both omitted on encode); `storage`, `claim` and `status` are the
external collaborator types (`resource.Quantity`, `v1.ObjectReference`,
`v1.PersistentVolumeStatus`), modelled from the spec (section 1) as opaque
JSON payloads with identity codecs that never produce JSON null. -/
structure PersistentVolumeMeta where
  version : String
  cluster : String
  name : String
  namespace' : String
  labels : List (String × String)
  annotations : List (String × String)
  storage : Option Json
  accessModes : Option AccessModes
  claim : Option Json
  reclaimPolicy : String
  storageClass : String
  mountOptions : String
  status : Option Json

/-- One optional field of the flat metadata object: absent fields
contribute no binding (the `omitempty` behaviour). -/
def optEntry (k : String) : Option Json → Obj
  | none => []
  | some v => [(k, v)]

/-- Encoding of an `omitempty` string field: the empty string is omitted. -/
def strOpt (s : String) : Option Json :=
  if s = "" then none else some (Json.str s)

/-- Encoding of an `omitempty` string-map field: the empty map is omitted,
otherwise it becomes a JSON object of string values in order. -/
def mapOpt (l : List (String × String)) : Option Json :=
  if l = [] then none
  else some (Json.obj (l.map (fun kv => (kv.1, Json.str kv.2))))

/-- The wire keys of the thirteen metadata fields, in struct-tag order. -/
def metaKeys : List String :=
  ["version", "cluster", "name", "namespace", "labels", "annotations",
   "storage", "modes", "claim", "reclaim", "storage_class", "mount_options", "status"]

/-- The flat object produced by structurally marshalling
`PersistentVolumeMeta` (given the already-encoded `modes` value):
one optional binding per field, in struct-tag order. -/
def metaFrags (m : PersistentVolumeMeta) (modesJ : Option Json) : Obj :=
  optEntry "version" (strOpt m.version) ++
  optEntry "cluster" (strOpt m.cluster) ++
  optEntry "name" (strOpt m.name) ++
  optEntry "namespace" (strOpt m.namespace') ++
  optEntry "labels" (mapOpt m.labels) ++
  optEntry "annotations" (mapOpt m.annotations) ++
  optEntry "storage" m.storage ++
  optEntry "modes" modesJ ++
  optEntry "claim" m.claim ++
  optEntry "reclaim" (strOpt m.reclaimPolicy) ++
  optEntry "storage_class" (strOpt m.storageClass) ++
  optEntry "mount_options" (strOpt m.mountOptions) ++
  optEntry "status" m.status

/-- `json.Marshal(v.PersistentVolumeMeta)` followed by unmarshalling the
bytes into a generic map, as done inside `PersistentVolume.MarshalJSON`
(the byte round trip is the identity on well-formed output).  A non-nil
`AccessModes` pointer is encoded through `AccessModes.MarshalJSON`
(failing exactly when `ToString` fails); a nil pointer is omitted. -/
def PersistentVolumeMeta.marshalObj (m : PersistentVolumeMeta) : Except Err Obj :=
  match m.accessModes with
  | none => .ok (metaFrags m none)
  | some a =>
    match a.toString with
    | .error e => .error e
    | .ok s => .ok (metaFrags m (some (Json.str s)))

/-- Structural decode of an `omitempty` string field: absent or JSON null
leaves the zero value `""`; a JSON string yields itself; any other value
is a Go `encoding/json` type error. -/
def decStr : Option Json → Except Err String
  | none => .ok ""
  | some .null => .ok ""
  | some (.str s) => .ok s
  | some _ => .error ⟨.goJsonError, "json: cannot unmarshal value into string field"⟩

/-- Structural decode of the entries of a `map[string]string` value, in
input order, failing on the first non-string value. -/
def decMapEntries : List (String × Json) → Except Err (List (String × String))
  | [] => .ok []
  | (k, Json.str v) :: rest =>
    match decMapEntries rest with
    | .error e => .error e
    | .ok r => .ok ((k, v) :: r)
  | (_, _) :: _ => .error ⟨.goJsonError, "json: cannot unmarshal value into string map"⟩

/-- Structural decode of an `omitempty` `map[string]string` field. -/
def decMap : Option Json → Except Err (List (String × String))
  | none => .ok []
  | some .null => .ok []
  | some (.obj entries) => decMapEntries entries
  | some _ => .error ⟨.goJsonError, "json: cannot unmarshal value into map field"⟩

/-- Structural decode of an opaque external pointer field: absent or JSON
null leaves the nil pointer, any other value is taken as is (the external
collaborator codecs are modelled as identities, spec section 1). -/
def decOpaque : Option Json → Option Json
  | none => none
  | some .null => none
  | some j => some j

/-- Structural decode of the `*AccessModes` field: absent or JSON null
leaves the nil pointer, otherwise `AccessModes.UnmarshalJSON` runs. -/
def decModes : Option Json → Except Err (Option AccessModes)
  | none => .ok none
  | some .null => .ok none
  | some j =>
    match AccessModes.unmarshalJSON j with
    | .error e => .error e
    | .ok a => .ok (some a)

/-- `json.Unmarshal(data, &v.PersistentVolumeMeta)`: structural decode of
the metadata half from the same flat object; unknown keys are ignored.
Field errors are reported in struct-tag order (Go reports them in input
key order; no claim depends on the difference). -/
def PersistentVolumeMeta.unmarshalJSON : Json → Except Err PersistentVolumeMeta
  | .obj o => do
    let version ← decStr (Obj.get o "version")
    let cluster ← decStr (Obj.get o "cluster")
    let name ← decStr (Obj.get o "name")
    let namespace' ← decStr (Obj.get o "namespace")
    let labels ← decMap (Obj.get o "labels")
    let annotations ← decMap (Obj.get o "annotations")
    let storage := decOpaque (Obj.get o "storage")
    let accessModes ← decModes (Obj.get o "modes")
    let claim := decOpaque (Obj.get o "claim")
    let reclaimPolicy ← decStr (Obj.get o "reclaim")
    let storageClass ← decStr (Obj.get o "storage_class")
    let mountOptions ← decStr (Obj.get o "mount_options")
    let status := decOpaque (Obj.get o "status")
    .ok ⟨version, cluster, name, namespace', labels, annotations, storage,
        accessModes, claim, reclaimPolicy, storageClass, mountOptions, status⟩
  | _ => .error ⟨.goJsonError, "json: cannot unmarshal value into PersistentVolumeMeta"⟩

/-- `PersistentVolume` struct: the metadata half and the source half. -/
structure PersistentVolume where
  meta : PersistentVolumeMeta
  source : PersistentVolumeSource

/-- The merge loop of `PersistentVolume.MarshalJSON`:
`for key, val := range metaObj \x7b sourceObj[key] = val \x7d` — every
metadata binding is written into the source object, overwriting any
existing binding for the same key. -/
def mergeMeta (sourceObj metaObj : Obj) : Obj :=
  metaObj.foldl (fun acc kv => Obj.set acc kv.1 kv.2) sourceObj

/-- `PersistentVolume.MarshalJSON`: marshal the metadata (errors wrapped
as `util.InvalidInstanceErrorf(v, "couldn\x27t marshal metadata to JSON: %s")`),
marshal the source (errors returned unwrapped), convert both to flat
objects (identity in this model) and merge the metadata into the source
object last, so metadata wins on key collisions. -/
def PersistentVolume.marshalJSON (v : PersistentVolume) : Except Err Obj :=
  match v.meta.marshalObj with
  | .error e => .error ⟨.invalidInstance, "couldn\x27t marshal metadata to JSON: " ++ e.msg⟩
  | .ok metaObj =>
    match v.source.marshalJSON with
    | .error e => .error e
    | .ok sourceObj => .ok (mergeMeta sourceObj metaObj)

/-- `PersistentVolume.UnmarshalJSON`: decode the source half from the full
document, then the metadata half from the same document.  EACH sub-error
is wrapped in a fresh `util.InvalidValueForTypeErrorf` whose message
embeds the sub-error message after a fixed prefix. -/
def PersistentVolume.unmarshalJSON (data : Json) : Except Err PersistentVolume :=
  match PersistentVolumeSource.unmarshalJSON data with
  | .error e =>
    .error ⟨.invalidValueForType, "couldn\x27t unmarshal volume source from JSON: " ++ e.msg⟩
  | .ok source =>
    match PersistentVolumeMeta.unmarshalJSON data with
    | .error e =>
      .error ⟨.invalidValueForType, "couldn\x27t unmarshal metadata from JSON: " ++ e.msg⟩
    | .ok meta => .ok ⟨meta, source⟩

/-- Validity of an access-mode value: one of the three enum constants. -/
def validMode (m : String) : Prop :=
  m = v1ReadOnlyMany ∨ m = v1ReadWriteMany ∨ m = v1ReadWriteOnce

/-- No colon in a string — required of selector tokens, which the codec
joins with `:` into `vol_id` and splits back. -/
def noColon (s : String) : Prop := ':' ∉ s.data

/-- Claim-level validity of the metadata fields: every access mode is one
of the three enum values, and the opaque external payloads are never JSON
null (a non-nil external pointer never marshals to null). -/
def PersistentVolumeMeta.validFields (m : PersistentVolumeMeta) : Prop :=
  (∀ mode ∈ (match m.accessModes with | none => [] | some a => a.modes), validMode mode) ∧
  (match m.storage with | some .null => False | _ => True) ∧
  (match m.claim with | some .null => False | _ => True) ∧
  (match m.status with | some .null => False | _ => True)

/-- Exactly one of the three source arms is populated. -/
def PersistentVolumeSource.exactlyOne (v : PersistentVolumeSource) : Prop :=
  (v.gcePD.isSome ∧ v.awsEBS = none ∧ v.hostPath = none) ∨
  (v.gcePD = none ∧ v.awsEBS.isSome ∧ v.hostPath = none) ∨
  (v.gcePD = none ∧ v.awsEBS = none ∧ v.hostPath.isSome)

/-- The populated arms carry colon-free selector tokens (a token holding a
colon cannot survive the colon-joined `vol_id` encoding). -/
def PersistentVolumeSource.validArms (v : PersistentVolumeSource) : Prop :=
  (match v.gcePD with | some g => noColon g.pdName | none => True) ∧
  (match v.awsEBS with | some a => noColon a.volumeId | none => True) ∧
  (match v.hostPath with | some h => noColon h.path | none => True)

/-- Claim-level validity of a resource: valid metadata fields, exactly one
populated source arm, and colon-free selector tokens. -/
def PersistentVolume.valid (r : PersistentVolume) : Prop :=
  r.meta.validFields ∧ r.source.exactlyOne ∧ r.source.validArms

theorem oor_some (v : Json) (y : Option Json) : oor (some v) y = some v := rfl

theorem oor_none (y : Option Json) : oor none y = y := rfl

theorem oor_none_right (x : Option Json) : oor x none = x := by
  cases x <;> rfl

theorem Obj.get_append (a b : Obj) (k : String) :
    Obj.get (a ++ b) k = oor (Obj.get b k) (Obj.get a k) := by
  induction a with
  | nil => simp [Obj.get, oor_none_right]
  | cons kv a' ih =>
    obtain ⟨k', v⟩ := kv
    have h1 : Obj.get (((k', v) :: a') ++ b) k =
        match Obj.get (a' ++ b) k with
        | some r => some r
        | none => if k' = k then some v else none := rfl
    have h2 : Obj.get ((k', v) :: a') k =
        match Obj.get a' k with
        | some r => some r
        | none => if k' = k then some v else none := rfl
    rw [h1, ih, h2]
    cases hb : Obj.get b k <;> cases ha : Obj.get a' k <;> simp [oor]

theorem Obj.get_optEntry (k k' : String) (j : Option Json) :
    Obj.get (optEntry k j) k' = if k = k' then j else none := by
  cases j with
  | none => simp [optEntry, Obj.get]
  | some v => simp [optEntry, Obj.get]

theorem goSplit_ne_nil (sep : Char) (l : List Char) : goSplit sep l ≠ [] := by
  cases l with
  | nil => simp [goSplit]
  | cons c rest =>
    simp only [goSplit]
    cases goSplit sep rest with
    | nil => simp
    | cons t ts =>
      by_cases h : c = sep <;> simp [h]

theorem goSplit_noSep (sep : Char) (x : List Char) (h : sep ∉ x) :
    goSplit sep x = [x] := by
  induction x with
  | nil => rfl
  | cons c x' ih =>
    have hc : c ≠ sep := fun hcs => h (hcs ▸ List.mem_cons_self c x')
    have hx' : sep ∉ x' := fun hm => h (List.mem_cons_of_mem c hm)
    simp [goSplit, ih hx', hc]

theorem goSplit_sep_append (sep : Char) (x r : List Char) (h : sep ∉ x) :
    goSplit sep (x ++ sep :: r) = x :: goSplit sep r := by
  induction x with
  | nil =>
    simp only [List.nil_append, goSplit]
    cases hr : goSplit sep r with
    | nil => exact absurd hr (goSplit_ne_nil sep r)
    | cons t ts => simp
  | cons c x' ih =>
    have hc : c ≠ sep := fun hcs => h (hcs ▸ List.mem_cons_self c x')
    have hx' : sep ∉ x' := fun hm => h (List.mem_cons_of_mem c hm)
    show goSplit sep (c :: (x' ++ sep :: r)) = _
    simp only [goSplit]
    rw [ih hx']
    simp [hc]

theorem goSplit_goJoin (sep : Char) (l : List (List Char))
    (h : ∀ x ∈ l, sep ∉ x) (hne : l ≠ []) :
    goSplit sep (goJoin sep l) = l := by
  induction l with
  | nil => exact absurd rfl hne
  | cons x xs ih =>
    cases xs with
    | nil =>
      simp only [goJoin]
      exact goSplit_noSep sep x (h x (List.mem_cons_self x []))
    | cons y ys =>
      simp only [goJoin]
      rw [goSplit_sep_append sep x (goJoin sep (y :: ys)) (h x (List.mem_cons_self x (y :: ys)))]
      rw [ih (fun z hz => h z (List.mem_cons_of_mem x hz)) (by simp)]

/-- `x` occurs contiguously inside `y`. -/
def substrOf (x y : List Char) : Prop := ∃ p q, y = p ++ x ++ q

theorem substrOf_trans (x y z : List Char) (h1 : substrOf x y) (h2 : substrOf y z) :
    substrOf x z := by
  obtain ⟨p, q, rfl⟩ := h1
  obtain ⟨p', q', rfl⟩ := h2
  exact ⟨p' ++ p, q ++ q', by simp⟩

theorem goSplit_head_pref (sep : Char) (l t : List Char) (ts : List (List Char))
    (h : goSplit sep l = t :: ts) : ∃ q, l = t ++ q := by
  induction l generalizing t ts with
  | nil =>
    simp only [goSplit] at h
    obtain ⟨rfl, rfl⟩ := by simpa using h
    exact ⟨[], rfl⟩
  | cons c rest ih =>
    simp only [goSplit] at h
    cases hr : goSplit sep rest with
    | nil => exact absurd hr (goSplit_ne_nil sep rest)
    | cons t' ts' =>
      rw [hr] at h
      by_cases hc : c = sep
      · simp only [hc, if_pos rfl] at h
        obtain ⟨rfl, rfl⟩ := by simpa using h
        exact ⟨c :: rest, rfl⟩
      · simp only [if_neg hc] at h
        obtain ⟨rfl, rfl⟩ := by simpa using h
        obtain ⟨q, hq⟩ := ih t' ts' hr
        exact ⟨q, by simp [hq]⟩

theorem goSplit_mem_substr (sep : Char) (l u : List Char)
    (h : u ∈ goSplit sep l) : substrOf u l := by
  induction l with
  | nil =>
    simp only [goSplit, List.mem_singleton] at h
    exact ⟨[], [], by simp [h]⟩
  | cons c rest ih =>
    simp only [goSplit] at h
    cases hr : goSplit sep rest with
    | nil => exact absurd hr (goSplit_ne_nil sep rest)
    | cons t' ts' =>
      rw [hr] at h
      by_cases hc : c = sep
      · simp only [hc, if_pos rfl] at h
        rcases List.mem_cons.mp h with rfl | h'
        · exact ⟨[], c :: rest, rfl⟩
        · obtain ⟨p, q, hpq⟩ := ih (hr ▸ h')
          exact ⟨c :: p, q, by simp [hpq]⟩
      · simp only [if_neg hc] at h
        rcases List.mem_cons.mp h with rfl | h'
        · obtain ⟨q, hq⟩ := goSplit_head_pref sep rest t' ts' hr
          exact ⟨[], q, by simp [hq]⟩
        · obtain ⟨p, q, hpq⟩ := ih (hr ▸ List.mem_cons_of_mem t' h')
          exact ⟨c :: p, q, by simp [hpq]⟩

theorem goSplitS_ne_nil (sep : Char) (s : String) : goSplitS sep s ≠ [] := by
  simp only [goSplitS, ne_eq, List.map_eq_nil_iff]
  exact goSplit_ne_nil sep s.data

theorem goSplitS_noSep (sep : Char) (s : String) (h : sep ∉ s.data) :
    goSplitS sep s = [s] := by
  simp only [goSplitS, goSplit_noSep sep s.data h, List.map_cons, List.map_nil]

theorem goSplitS_goJoinS (sep : Char) (l : List String)
    (h : ∀ x ∈ l, sep ∉ x.data) (hne : l ≠ []) :
    goSplitS sep (goJoinS sep l) = l := by
  simp only [goSplitS, goJoinS]
  rw [goSplit_goJoin sep (l.map String.data)
      (by intro y hy; obtain ⟨x, hx, rfl⟩ := List.mem_map.mp hy; exact h x hx)
      (by simpa using hne)]
  have hmk : String.mk ∘ String.data = id := funext fun s => rfl
  rw [List.map_map, hmk, List.map_id]

/-- Symbol of a valid access mode (the value chosen by the `ToString`
switch; unspecified junk on invalid modes). -/
def symOf (mode : String) : String :=
  if mode = v1ReadOnlyMany then "ro"
  else if mode = v1ReadWriteMany then "rw"
  else "rw-once"

theorem symOf_noComma (x : String) (h : validMode x) : ',' ∉ (symOf x).data := by
  rcases h with rfl | rfl | rfl <;> decide

theorem modeSyms_valid (l : List String) (h : ∀ x ∈ l, validMode x) :
    modeSyms l = .ok (l.map symOf) := by
  induction l with
  | nil => rfl
  | cons mode rest ih =>
    have hrest := ih (fun x hx => h x (List.mem_cons_of_mem mode hx))
    rcases h mode (List.mem_cons_self mode rest) with hm | hm | hm <;> subst hm <;>
      · simp only [modeSyms, symOf, List.map_cons]
        rw [hrest]
        simp [v1ReadOnlyMany, v1ReadWriteMany, v1ReadWriteOnce]

theorem parseModes_map (s : String) (l : List String) (h : ∀ x ∈ l, validMode x) :
    parseModes s (l.map symOf) = .ok l := by
  induction l with
  | nil => rfl
  | cons mode rest ih =>
    have hrest := ih (fun x hx => h x (List.mem_cons_of_mem mode hx))
    rcases h mode (List.mem_cons_self mode rest) with hm | hm | hm <;> subst hm <;>
      · simp only [symOf, List.map_cons, parseModes]
        rw [hrest]
        simp [v1ReadOnlyMany, v1ReadWriteMany, v1ReadWriteOnce]

theorem toString_valid (l : List String) (h : ∀ x ∈ l, validMode x) (hne : l ≠ []) :
    AccessModes.toString ⟨l⟩ = .ok (goJoinS ',' (l.map symOf)) := by
  simp only [AccessModes.toString]
  rw [modeSyms_valid l h]
  simp [hne]

theorem initFromString_join (l : List String) (h : ∀ x ∈ l, validMode x) (hne : l ≠ []) :
    AccessModes.initFromString (goJoinS ',' (l.map symOf)) = .ok l := by
  have hsplit : goSplitS ',' (goJoinS ',' (l.map symOf)) = l.map symOf :=
    goSplitS_goJoinS ',' (l.map symOf)
      (by intro y hy; obtain ⟨x, hx, rfl⟩ := List.mem_map.mp hy; exact symOf_noComma x (h x hx))
      (by simpa using hne)
  simp only [AccessModes.initFromString, hsplit]
  rw [if_neg (by simpa using hne)]
  exact parseModes_map _ l h

/-- A token the compact-list decoder recognizes. -/
def isModeTok (t : String) : Prop := t = "ro" ∨ t = "rw" ∨ t = "rw-once"

theorem parseModes_err (s : String) (toks : List String)
    (h : ∃ t ∈ toks, ¬ isModeTok t) :
    parseModes s toks = .error ⟨.invalidValue, "couldn\x27t parse (" ++ s ++ ")"⟩ := by
  induction toks with
  | nil => simp at h
  | cons tok rest ih =>
    by_cases htok : isModeTok tok
    · obtain ⟨t, ht, hbad⟩ := h
      rcases List.mem_cons.mp ht with rfl | ht'
      · exact absurd htok hbad
      · rcases htok with rfl | rfl | rfl <;>
          · simp only [parseModes]
            rw [ih ⟨t, ht', hbad⟩]
            simp
    · have h1 : tok ≠ "ro" := fun hx => htok (Or.inl hx)
      have h2 : tok ≠ "rw" := fun hx => htok (Or.inr (Or.inl hx))
      have h3 : tok ≠ "rw-once" := fun hx => htok (Or.inr (Or.inr hx))
      simp [parseModes, h1, h2, h3]

theorem get_metaFrags_version (m : PersistentVolumeMeta) (mj : Option Json) :
    Obj.get (metaFrags m mj) "version" = strOpt m.version := by
  simp [metaFrags, Obj.get_append, Obj.get_optEntry, oor_some, oor_none, oor_none_right]

theorem get_metaFrags_cluster (m : PersistentVolumeMeta) (mj : Option Json) :
    Obj.get (metaFrags m mj) "cluster" = strOpt m.cluster := by
  simp [metaFrags, Obj.get_append, Obj.get_optEntry, oor_some, oor_none, oor_none_right]

theorem get_metaFrags_name (m : PersistentVolumeMeta) (mj : Option Json) :
    Obj.get (metaFrags m mj) "name" = strOpt m.name := by
  simp [metaFrags, Obj.get_append, Obj.get_optEntry, oor_some, oor_none, oor_none_right]

theorem get_metaFrags_namespace (m : PersistentVolumeMeta) (mj : Option Json) :
    Obj.get (metaFrags m mj) "namespace" = strOpt m.namespace' := by
  simp [metaFrags, Obj.get_append, Obj.get_optEntry, oor_some, oor_none, oor_none_right]

theorem get_metaFrags_labels (m : PersistentVolumeMeta) (mj : Option Json) :
    Obj.get (metaFrags m mj) "labels" = mapOpt m.labels := by
  simp [metaFrags, Obj.get_append, Obj.get_optEntry, oor_some, oor_none, oor_none_right]

theorem get_metaFrags_annotations (m : PersistentVolumeMeta) (mj : Option Json) :
    Obj.get (metaFrags m mj) "annotations" = mapOpt m.annotations := by
  simp [metaFrags, Obj.get_append, Obj.get_optEntry, oor_some, oor_none, oor_none_right]

theorem get_metaFrags_storage (m : PersistentVolumeMeta) (mj : Option Json) :
    Obj.get (metaFrags m mj) "storage" = m.storage := by
  simp [metaFrags, Obj.get_append, Obj.get_optEntry, oor_some, oor_none, oor_none_right]

theorem get_metaFrags_modes (m : PersistentVolumeMeta) (mj : Option Json) :
    Obj.get (metaFrags m mj) "modes" = mj := by
  simp [metaFrags, Obj.get_append, Obj.get_optEntry, oor_some, oor_none, oor_none_right]

theorem get_metaFrags_claim (m : PersistentVolumeMeta) (mj : Option Json) :
    Obj.get (metaFrags m mj) "claim" = m.claim := by
  simp [metaFrags, Obj.get_append, Obj.get_optEntry, oor_some, oor_none, oor_none_right]

theorem get_metaFrags_reclaim (m : PersistentVolumeMeta) (mj : Option Json) :
    Obj.get (metaFrags m mj) "reclaim" = strOpt m.reclaimPolicy := by
  simp [metaFrags, Obj.get_append, Obj.get_optEntry, oor_some, oor_none, oor_none_right]

theorem get_metaFrags_storageClass (m : PersistentVolumeMeta) (mj : Option Json) :
    Obj.get (metaFrags m mj) "storage_class" = strOpt m.storageClass := by
  simp [metaFrags, Obj.get_append, Obj.get_optEntry, oor_some, oor_none, oor_none_right]

theorem get_metaFrags_mountOptions (m : PersistentVolumeMeta) (mj : Option Json) :
    Obj.get (metaFrags m mj) "mount_options" = strOpt m.mountOptions := by
  simp [metaFrags, Obj.get_append, Obj.get_optEntry, oor_some, oor_none, oor_none_right]

theorem get_metaFrags_status (m : PersistentVolumeMeta) (mj : Option Json) :
    Obj.get (metaFrags m mj) "status" = m.status := by
  simp [metaFrags, Obj.get_append, Obj.get_optEntry, oor_some, oor_none, oor_none_right]

theorem get_metaFrags_volType (m : PersistentVolumeMeta) (mj : Option Json) :
    Obj.get (metaFrags m mj) "vol_type" = none := by
  simp [metaFrags, Obj.get_append, Obj.get_optEntry, oor_some, oor_none, oor_none_right]

theorem get_metaFrags_volId (m : PersistentVolumeMeta) (mj : Option Json) :
    Obj.get (metaFrags m mj) "vol_id" = none := by
  simp [metaFrags, Obj.get_append, Obj.get_optEntry, oor_some, oor_none, oor_none_right]

theorem get_metaFrags_fs (m : PersistentVolumeMeta) (mj : Option Json) :
    Obj.get (metaFrags m mj) "fs" = none := by
  simp [metaFrags, Obj.get_append, Obj.get_optEntry, oor_some, oor_none, oor_none_right]

theorem decStr_strOpt (s : String) : decStr (strOpt s) = .ok s := by
  by_cases h : s = "" <;> simp [strOpt, decStr, h]

theorem decMapEntries_map (l : List (String × String)) :
    decMapEntries (l.map (fun kv => (kv.1, Json.str kv.2))) = .ok l := by
  induction l with
  | nil => rfl
  | cons kv rest ih =>
    obtain ⟨k, v⟩ := kv
    simp only [List.map_cons, decMapEntries]
    rw [ih]

theorem decMap_mapOpt (l : List (String × String)) : decMap (mapOpt l) = .ok l := by
  by_cases h : l = []
  · simp [mapOpt, decMap, h]
  · simp only [mapOpt, if_neg h, decMap]
    exact decMapEntries_map l

theorem decOpaque_id (j : Option Json)
    (h : match j with | some .null => False | _ => True) : decOpaque j = j := by
  cases j with
  | none => rfl
  | some v => cases v <;> first | rfl | exact absurd h (by simp)

/-- The encoded `modes` value of a metadata record: absent for a nil
pointer, otherwise the comma-joined symbol string. -/
def modesJson (m : PersistentVolumeMeta) : Option Json :=
  match m.accessModes with
  | none => none
  | some a => some (Json.str (goJoinS ',' (a.modes.map symOf)))

theorem exceptBind_ok {α β : Type} (x : α) (f : α → Except Err β) :
    Bind.bind (Except.ok x) f = f x := rfl

theorem marshalObj_valid (m : PersistentVolumeMeta)
    (hmv : ∀ mode ∈ (match m.accessModes with | none => [] | some a => a.modes), validMode mode)
    (hne : ∀ a, m.accessModes = some a → a.modes ≠ []) :
    m.marshalObj = .ok (metaFrags m (modesJson m)) := by
  cases ham : m.accessModes with
  | none => simp [PersistentVolumeMeta.marshalObj, modesJson, ham]
  | some a =>
    have hval : ∀ x ∈ a.modes, validMode x := by
      intro x hx
      have := hmv x
      rw [ham] at this
      exact this hx
    have htos : AccessModes.toString a = .ok (goJoinS ',' (a.modes.map symOf)) := by
      have := toString_valid a.modes hval (hne a ham)
      exact this
    simp only [PersistentVolumeMeta.marshalObj, modesJson, ham]
    rw [htos]

theorem decModes_modesJson (m : PersistentVolumeMeta)
    (hmv : ∀ mode ∈ (match m.accessModes with | none => [] | some a => a.modes), validMode mode)
    (hne : ∀ a, m.accessModes = some a → a.modes ≠ []) :
    decModes (modesJson m) = .ok m.accessModes := by
  cases ham : m.accessModes with
  | none => simp [modesJson, decModes, ham]
  | some a =>
    have hval : ∀ x ∈ a.modes, validMode x := by
      intro x hx
      have := hmv x
      rw [ham] at this
      exact this hx
    simp only [modesJson, ham, decModes, AccessModes.unmarshalJSON]
    rw [initFromString_join a.modes hval (hne a ham)]

theorem meta_unmarshal_merged (m : PersistentVolumeMeta) (sObj : Obj)
    (hs : ∀ k ∈ metaKeys, Obj.get sObj k = none)
    (hmv : ∀ mode ∈ (match m.accessModes with | none => [] | some a => a.modes), validMode mode)
    (hne : ∀ a, m.accessModes = some a → a.modes ≠ [])
    (hst : match m.storage with | some .null => False | _ => True)
    (hcl : match m.claim with | some .null => False | _ => True)
    (hsu : match m.status with | some .null => False | _ => True) :
    PersistentVolumeMeta.unmarshalJSON (.obj (sObj ++ metaFrags m (modesJson m))) = .ok m := by
  have hver : Obj.get (sObj ++ metaFrags m (modesJson m)) "version" = strOpt m.version := by
    rw [Obj.get_append, get_metaFrags_version, hs "version" (by decide), oor_none_right]
  have hclu : Obj.get (sObj ++ metaFrags m (modesJson m)) "cluster" = strOpt m.cluster := by
    rw [Obj.get_append, get_metaFrags_cluster, hs "cluster" (by decide), oor_none_right]
  have hnam : Obj.get (sObj ++ metaFrags m (modesJson m)) "name" = strOpt m.name := by
    rw [Obj.get_append, get_metaFrags_name, hs "name" (by decide), oor_none_right]
  have hns : Obj.get (sObj ++ metaFrags m (modesJson m)) "namespace" = strOpt m.namespace' := by
    rw [Obj.get_append, get_metaFrags_namespace, hs "namespace" (by decide), oor_none_right]
  have hlab : Obj.get (sObj ++ metaFrags m (modesJson m)) "labels" = mapOpt m.labels := by
    rw [Obj.get_append, get_metaFrags_labels, hs "labels" (by decide), oor_none_right]
  have hann : Obj.get (sObj ++ metaFrags m (modesJson m)) "annotations" = mapOpt m.annotations := by
    rw [Obj.get_append, get_metaFrags_annotations, hs "annotations" (by decide), oor_none_right]
  have hsto : Obj.get (sObj ++ metaFrags m (modesJson m)) "storage" = m.storage := by
    rw [Obj.get_append, get_metaFrags_storage, hs "storage" (by decide), oor_none_right]
  have hmod : Obj.get (sObj ++ metaFrags m (modesJson m)) "modes" = modesJson m := by
    rw [Obj.get_append, get_metaFrags_modes, hs "modes" (by decide), oor_none_right]
  have hcla : Obj.get (sObj ++ metaFrags m (modesJson m)) "claim" = m.claim := by
    rw [Obj.get_append, get_metaFrags_claim, hs "claim" (by decide), oor_none_right]
  have hrec : Obj.get (sObj ++ metaFrags m (modesJson m)) "reclaim" = strOpt m.reclaimPolicy := by
    rw [Obj.get_append, get_metaFrags_reclaim, hs "reclaim" (by decide), oor_none_right]
  have hsc : Obj.get (sObj ++ metaFrags m (modesJson m)) "storage_class" = strOpt m.storageClass := by
    rw [Obj.get_append, get_metaFrags_storageClass, hs "storage_class" (by decide), oor_none_right]
  have hmo : Obj.get (sObj ++ metaFrags m (modesJson m)) "mount_options" = strOpt m.mountOptions := by
    rw [Obj.get_append, get_metaFrags_mountOptions, hs "mount_options" (by decide), oor_none_right]
  have hsta : Obj.get (sObj ++ metaFrags m (modesJson m)) "status" = m.status := by
    rw [Obj.get_append, get_metaFrags_status, hs "status" (by decide), oor_none_right]
  simp only [PersistentVolumeMeta.unmarshalJSON, hver, hclu, hnam, hns, hlab, hann, hsto,
    hmod, hcla, hrec, hsc, hmo, hsta, decStr_strOpt, decMap_mapOpt,
    decModes_modesJson m hmv hne, decOpaque_id m.storage hst, decOpaque_id m.claim hcl,
    decOpaque_id m.status hsu, exceptBind_ok]

theorem mergeMeta_append (s mo : Obj) : mergeMeta s mo = s ++ mo := by
  induction mo generalizing s with
  | nil => simp [mergeMeta]
  | cons kv rest ih =>
    have h1 : mergeMeta s (kv :: rest) = mergeMeta (Obj.set s kv.1 kv.2) rest := rfl
    rw [h1, ih, Obj.set]
    simp

theorem host_marshal (h : HostPathVolume) :
    PersistentVolumeSource.marshalJSON ⟨none, none, some h⟩ =
      .ok [("vol_type", Json.str "hostpath"), ("vol_id", Json.str h.path)] := by
  obtain ⟨p⟩ := h
  rfl

theorem aws_marshal (a : AwsEBSVolume) :
    PersistentVolumeSource.marshalJSON ⟨none, some a, none⟩ =
      .ok [("vol_type", Json.str "aws_ebs"), ("vol_id", Json.str a.volumeId)] := by
  obtain ⟨vid⟩ := a
  rfl

theorem gce_marshal (g : GcePDVolume) :
    PersistentVolumeSource.marshalJSON ⟨some g, none, none⟩ =
      .ok (gceExtras g.fs ++
        [("vol_type", Json.str "gce_pd"), ("vol_id", Json.str g.pdName)]) := by
  obtain ⟨pd, fs⟩ := g
  cases fs <;> rfl

theorem get_two_none (k1 k2 k : String) (v1 v2 : Json) (h1 : k1 ≠ k) (h2 : k2 ≠ k) :
    Obj.get [(k1, v1), (k2, v2)] k = none := by
  simp [Obj.get, h1, h2]

theorem get_three_none (k1 k2 k3 k : String) (v1 v2 v3 : Json)
    (h1 : k1 ≠ k) (h2 : k2 ≠ k) (h3 : k3 ≠ k) :
    Obj.get [(k1, v1), (k2, v2), (k3, v3)] k = none := by
  simp [Obj.get, h1, h2, h3]

theorem host_decode (p : String) (hp : ':' ∉ p.data) (m : PersistentVolumeMeta)
    (mj : Option Json) :
    PersistentVolumeSource.unmarshalJSON
      (.obj ([("vol_type", Json.str "hostpath"), ("vol_id", Json.str p)] ++ metaFrags m mj)) =
      .ok ⟨none, none, some ⟨p⟩⟩ := by
  have hvolid : Obj.get ([("vol_type", Json.str "hostpath"), ("vol_id", Json.str p)] ++ metaFrags m mj) "vol_id" =
      some (Json.str p) := by
    rw [Obj.get_append, get_metaFrags_volId, oor_none]
    simp [Obj.get]
  have hvoltype : Obj.get ([("vol_type", Json.str "hostpath"), ("vol_id", Json.str p)] ++ metaFrags m mj) "vol_type" =
      some (Json.str "hostpath") := by
    rw [Obj.get_append, get_metaFrags_volType, oor_none]
    simp [Obj.get]
  simp only [PersistentVolumeSource.unmarshalJSON, hvolid, hvoltype, getStringEntry,
    goSplitS_noSep ':' p hp]
  simp [PersistentVolumeSource.unmarshal, HostPathVolume.unmarshal,
    VolumeTypeHostPath, VolumeTypeGcePD, VolumeTypeAwsEBS]

theorem aws_decode (vid : String) (hv : ':' ∉ vid.data) (m : PersistentVolumeMeta)
    (mj : Option Json) :
    PersistentVolumeSource.unmarshalJSON
      (.obj ([("vol_type", Json.str "aws_ebs"), ("vol_id", Json.str vid)] ++ metaFrags m mj)) =
      .ok ⟨none, some ⟨vid⟩, none⟩ := by
  have hvolid : Obj.get ([("vol_type", Json.str "aws_ebs"), ("vol_id", Json.str vid)] ++ metaFrags m mj) "vol_id" =
      some (Json.str vid) := by
    rw [Obj.get_append, get_metaFrags_volId, oor_none]
    simp [Obj.get]
  have hvoltype : Obj.get ([("vol_type", Json.str "aws_ebs"), ("vol_id", Json.str vid)] ++ metaFrags m mj) "vol_type" =
      some (Json.str "aws_ebs") := by
    rw [Obj.get_append, get_metaFrags_volType, oor_none]
    simp [Obj.get]
  simp only [PersistentVolumeSource.unmarshalJSON, hvolid, hvoltype, getStringEntry,
    goSplitS_noSep ':' vid hv]
  simp [PersistentVolumeSource.unmarshal, AwsEBSVolume.unmarshal,
    VolumeTypeHostPath, VolumeTypeGcePD, VolumeTypeAwsEBS]

theorem get_gceExtras_fs (fs : Option String) :
    Obj.get (gceExtras fs) "fs" = Option.map Json.str fs := by
  cases fs <;> simp [gceExtras, Obj.get]

theorem get_gceExtras_ne (fs : Option String) (k : String) (h : k ≠ "fs") :
    Obj.get (gceExtras fs) k = none := by
  have h' : "fs" ≠ k := Ne.symm h
  cases fs <;> simp [gceExtras, Obj.get, h']

theorem gce_decode (g : GcePDVolume) (hp : ':' ∉ g.pdName.data)
    (m : PersistentVolumeMeta) (mj : Option Json) :
    PersistentVolumeSource.unmarshalJSON
      (.obj ((gceExtras g.fs ++
        [("vol_type", Json.str "gce_pd"), ("vol_id", Json.str g.pdName)]) ++ metaFrags m mj)) =
      .ok ⟨some g, none, none⟩ := by
  obtain ⟨pd, fs⟩ := g
  have hvolid : Obj.get ((gceExtras fs ++
      [("vol_type", Json.str "gce_pd"), ("vol_id", Json.str pd)]) ++ metaFrags m mj) "vol_id" =
      some (Json.str pd) := by
    rw [Obj.get_append, get_metaFrags_volId, oor_none, Obj.get_append]
    simp only [get_gceExtras_ne fs "vol_id" (by decide)]
    rw [oor_none_right]
    simp [Obj.get]
  have hvoltype : Obj.get ((gceExtras fs ++
      [("vol_type", Json.str "gce_pd"), ("vol_id", Json.str pd)]) ++ metaFrags m mj) "vol_type" =
      some (Json.str "gce_pd") := by
    rw [Obj.get_append, get_metaFrags_volType, oor_none, Obj.get_append]
    simp only [get_gceExtras_ne fs "vol_type" (by decide)]
    rw [oor_none_right]
    simp [Obj.get]
  have hfs : Obj.get ((gceExtras fs ++
      [("vol_type", Json.str "gce_pd"), ("vol_id", Json.str pd)]) ++ metaFrags m mj) "fs" =
      Option.map Json.str fs := by
    rw [Obj.get_append, get_metaFrags_fs, oor_none, Obj.get_append,
      get_two_none "vol_type" "vol_id" "fs" _ _ (by decide) (by decide), oor_none,
      get_gceExtras_fs]
  simp only [PersistentVolumeSource.unmarshalJSON, hvolid, hvoltype, getStringEntry,
    goSplitS_noSep ':' pd hp]
  simp only [PersistentVolumeSource.unmarshal,
    VolumeTypeHostPath, VolumeTypeGcePD, VolumeTypeAwsEBS]
  simp only [GcePDVolume.unmarshal, hfs]
  cases fs <;> simp

theorem hs_twoEntry (t p : String) :
    ∀ k ∈ metaKeys, Obj.get [("vol_type", Json.str t), ("vol_id", Json.str p)] k = none := by
  intro k hk
  simp only [metaKeys] at hk
  fin_cases hk <;> simp [Obj.get]

theorem hs_gce (fs : Option String) (t p : String) :
    ∀ k ∈ metaKeys,
      Obj.get (gceExtras fs ++ [("vol_type", Json.str t), ("vol_id", Json.str p)]) k = none := by
  intro k hk
  rw [Obj.get_append, hs_twoEntry t p k hk, oor_none]
  apply get_gceExtras_ne
  simp only [metaKeys] at hk
  fin_cases hk <;> decide

/-- C1 (amended): for every valid Resource in which exactly one Source arm
is populated, the Metadata fields are valid, AND the access-mode list,
when present, is non-empty, decoding the object produced by encoding
yields the Resource back (object equality up to map key order is built
into the `Obj` model).  The non-emptiness condition is forced by the
counterexample: an empty-but-present mode list encodes to `"modes": ""`,
which `InitFromString` rejects on decode. -/
theorem decode_encode_roundTrip (r : PersistentVolume)
    (hv : r.valid)
    (hnem : ∀ a, r.meta.accessModes = some a → a.modes ≠ []) :
    ∃ o, r.marshalJSON = .ok o ∧ PersistentVolume.unmarshalJSON (.obj o) = .ok r := by
  obtain ⟨m, s⟩ := r
  obtain ⟨⟨hmv, hst, hcl, hsu⟩, hone, ⟨hag, haa, hah⟩⟩ := hv
  have hmo := marshalObj_valid m hmv hnem
  obtain ⟨sg, sa, sh⟩ := s
  dsimp only at hmv hst hcl hsu hag haa hah hone hnem
  rcases hone with ⟨hg, ha, hh⟩ | ⟨hg, ha, hh⟩ | ⟨hg, ha, hh⟩
  · obtain ⟨g, rfl⟩ := Option.isSome_iff_exists.mp hg
    subst ha; subst hh
    dsimp only at hag
    refine ⟨(gceExtras g.fs ++ [("vol_type", Json.str "gce_pd"), ("vol_id", Json.str g.pdName)]) ++
      metaFrags m (modesJson m), ?_, ?_⟩
    · simp only [PersistentVolume.marshalJSON, hmo, gce_marshal g, mergeMeta_append]
    · have hmeta := meta_unmarshal_merged m
        (gceExtras g.fs ++ [("vol_type", Json.str "gce_pd"), ("vol_id", Json.str g.pdName)])
        (hs_gce g.fs "gce_pd" g.pdName) hmv hnem hst hcl hsu
      simp only [PersistentVolume.unmarshalJSON, gce_decode g hag m (modesJson m), hmeta]
  · obtain ⟨a, rfl⟩ := Option.isSome_iff_exists.mp ha
    subst hg; subst hh
    dsimp only at haa
    obtain ⟨vid⟩ := a
    refine ⟨[("vol_type", Json.str "aws_ebs"), ("vol_id", Json.str vid)] ++
      metaFrags m (modesJson m), ?_, ?_⟩
    · simp only [PersistentVolume.marshalJSON, hmo, aws_marshal ⟨vid⟩, mergeMeta_append]
    · have hmeta := meta_unmarshal_merged m
        [("vol_type", Json.str "aws_ebs"), ("vol_id", Json.str vid)]
        (hs_twoEntry "aws_ebs" vid) hmv hnem hst hcl hsu
      simp only [PersistentVolume.unmarshalJSON, aws_decode vid haa m (modesJson m), hmeta]
  · obtain ⟨h, rfl⟩ := Option.isSome_iff_exists.mp hh
    subst hg; subst ha
    dsimp only at hah
    obtain ⟨p⟩ := h
    refine ⟨[("vol_type", Json.str "hostpath"), ("vol_id", Json.str p)] ++
      metaFrags m (modesJson m), ?_, ?_⟩
    · simp only [PersistentVolume.marshalJSON, hmo, host_marshal ⟨p⟩, mergeMeta_append]
    · have hmeta := meta_unmarshal_merged m
        [("vol_type", Json.str "hostpath"), ("vol_id", Json.str p)]
        (hs_twoEntry "hostpath" p) hmv hnem hst hcl hsu
      simp only [PersistentVolume.unmarshalJSON, host_decode p hah m (modesJson m), hmeta]

/-- C1 witness: the round trip evaluated on a concrete valid resource
(host-path source, name and one access mode set). -/
theorem decode_encode_roundTrip_witness :
    ∃ o, PersistentVolume.marshalJSON
        ⟨⟨"", "", "pv1", "", [], [], none, some ⟨[v1ReadOnlyMany]⟩, none, "", "", "", none⟩,
         ⟨none, none, some ⟨"/data"⟩⟩⟩ = .ok o ∧
      PersistentVolume.unmarshalJSON (.obj o) =
        .ok ⟨⟨"", "", "pv1", "", [], [], none, some ⟨[v1ReadOnlyMany]⟩, none, "", "", "", none⟩,
         ⟨none, none, some ⟨"/data"⟩⟩⟩ :=
  decode_encode_roundTrip
    ⟨⟨"", "", "pv1", "", [], [], none, some ⟨[v1ReadOnlyMany]⟩, none, "", "", "", none⟩,
     ⟨none, none, some ⟨"/data"⟩⟩⟩
    ⟨⟨by intro mode hm; simp at hm; subst hm; exact Or.inl rfl, trivial, trivial, trivial⟩,
     Or.inr (Or.inr ⟨rfl, rfl, rfl⟩),
     ⟨trivial, trivial, by show ':' ∉ ("/data" : String).data; decide⟩⟩
    (by intro a ha; cases Option.some.inj ha; simp)

/-- C1 counterexample: the claim as stated is false — the resource whose
metadata carries a present-but-empty access-mode list satisfies the
claim validity hypotheses, yet decoding its encoding fails (with the
wrapped `couldn\x27t parse ()` error) instead of returning the resource. -/
theorem decode_encode_roundTrip_cex :
    PersistentVolume.valid
      ⟨⟨"", "", "", "", [], [], none, some ⟨[]⟩, none, "", "", "", none⟩,
       ⟨none, none, some ⟨"/data"⟩⟩⟩ ∧
    PersistentVolume.marshalJSON
      ⟨⟨"", "", "", "", [], [], none, some ⟨[]⟩, none, "", "", "", none⟩,
       ⟨none, none, some ⟨"/data"⟩⟩⟩ =
      .ok [("vol_type", Json.str "hostpath"), ("vol_id", Json.str "/data"),
           ("modes", Json.str "")] ∧
    PersistentVolume.unmarshalJSON
      (.obj [("vol_type", Json.str "hostpath"), ("vol_id", Json.str "/data"),
             ("modes", Json.str "")]) ≠
      .ok ⟨⟨"", "", "", "", [], [], none, some ⟨[]⟩, none, "", "", "", none⟩,
       ⟨none, none, some ⟨"/data"⟩⟩⟩ :=
  ⟨⟨⟨by intro mode hm; simp at hm, trivial, trivial, trivial⟩,
    Or.inr (Or.inr ⟨rfl, rfl, rfl⟩),
    ⟨trivial, trivial, by show ':' ∉ ("/data" : String).data; decide⟩⟩,
   rfl,
   by
    rw [show PersistentVolume.unmarshalJSON
        (.obj [("vol_type", Json.str "hostpath"), ("vol_id", Json.str "/data"),
               ("modes", Json.str "")]) =
      Except.error ⟨.invalidValueForType,
        "couldn\x27t unmarshal metadata from JSON: couldn\x27t parse ()"⟩ from rfl]
    simp⟩

/-- C2 counterexample: the claim as stated is false — with both the GcePD
arm (first checked) and the HostPath arm (last checked) populated, the
encode output carries the HostPath tag, not the tag of the first non-nil
slot. -/
theorem marshal_source_order_cex :
    PersistentVolumeSource.marshalJSON ⟨some ⟨"pd1", none⟩, none, some ⟨"/data"⟩⟩ =
      .ok [("vol_type", Json.str "hostpath"), ("vol_id", Json.str "/data")] ∧
    Obj.get [("vol_type", Json.str "hostpath"), ("vol_id", Json.str "/data")] "vol_type" =
      some (Json.str VolumeTypeHostPath) ∧
    VolumeTypeHostPath ≠ VolumeTypeGcePD :=
  ⟨rfl, rfl, by decide⟩

/-- C2 (amended): encode checks the variant slots in the fixed order
GcePD, AwsEBS, HostPath, each non-nil slot overwriting the previous
choice, so the LAST non-nil slot provides the marshalled variant: the
output equals the encoding of the source holding only that slot.  If no
slot is set, encode fails with the empty-volume error. -/
theorem marshal_source_lastArmWins :
    (∀ (v : PersistentVolumeSource) (h : HostPathVolume), v.hostPath = some h →
      PersistentVolumeSource.marshalJSON v =
        PersistentVolumeSource.marshalJSON ⟨none, none, some h⟩) ∧
    (∀ (v : PersistentVolumeSource) (a : AwsEBSVolume),
      v.hostPath = none → v.awsEBS = some a →
      PersistentVolumeSource.marshalJSON v =
        PersistentVolumeSource.marshalJSON ⟨none, some a, none⟩) ∧
    (∀ (v : PersistentVolumeSource) (g : GcePDVolume),
      v.hostPath = none → v.awsEBS = none → v.gcePD = some g →
      PersistentVolumeSource.marshalJSON v =
        PersistentVolumeSource.marshalJSON ⟨some g, none, none⟩) ∧
    PersistentVolumeSource.marshalJSON ⟨none, none, none⟩ =
      .error ⟨.invalidInstance, "empty volume definition"⟩ := by
  refine ⟨?_, ?_, ?_, rfl⟩
  · intro v h hh
    obtain ⟨sg, sa, sh⟩ := v
    dsimp only at hh
    subst hh
    cases sg <;> cases sa <;> rfl
  · intro v a hh ha
    obtain ⟨sg, sa, sh⟩ := v
    dsimp only at hh ha
    subst hh; subst ha
    cases sg <;> rfl
  · intro v g hh ha hg
    obtain ⟨sg, sa, sh⟩ := v
    dsimp only at hh ha hg
    subst hh; subst ha; subst hg
    rfl

/-- C2 witness: the last-arm rule evaluated on concrete two-arm sources. -/
theorem marshal_source_lastArmWins_witness :
    PersistentVolumeSource.marshalJSON ⟨some ⟨"pd1", none⟩, none, some ⟨"/data"⟩⟩ =
      PersistentVolumeSource.marshalJSON ⟨none, none, some ⟨"/data"⟩⟩ ∧
    PersistentVolumeSource.marshalJSON ⟨some ⟨"pd1", none⟩, some ⟨"vol-1"⟩, none⟩ =
      PersistentVolumeSource.marshalJSON ⟨none, some ⟨"vol-1"⟩, none⟩ :=
  ⟨marshal_source_lastArmWins.1 _ _ rfl, marshal_source_lastArmWins.2.1 _ _ rfl rfl⟩

/-- C3: the metadata flat object is merged into the source-derived object
last, so whenever the metadata produces a wire key, the encoded output
carries the metadata value at that key, even if the source-derived object
carries that key with a different value; and the top-level encode is
exactly this merge of the two marshalled halves. -/
theorem encode_metadata_precedence :
    (∀ (sourceObj metaObj : Obj) (k : String) (val : Json),
      Obj.get metaObj k = some val →
      Obj.get (mergeMeta sourceObj metaObj) k = some val) ∧
    (∀ (v : PersistentVolume) (metaObj sourceObj : Obj),
      v.meta.marshalObj = .ok metaObj → v.source.marshalJSON = .ok sourceObj →
      v.marshalJSON = .ok (mergeMeta sourceObj metaObj)) := by
  constructor
  · intro sObj mObj k val h
    rw [mergeMeta_append, Obj.get_append, h, oor_some]
  · intro v mObj sObj hm hsrc
    simp only [PersistentVolume.marshalJSON, hm, hsrc]

/-- C3 witness: a concrete collision on the key `name` resolved in favour
of the metadata, and a concrete resource encoded as the merge of its two
halves. -/
theorem encode_metadata_precedence_witness :
    Obj.get (mergeMeta [("name", Json.str "other")] [("name", Json.str "pv1")]) "name" =
      some (Json.str "pv1") ∧
    PersistentVolume.marshalJSON
      ⟨⟨"", "", "pv1", "", [], [], none, none, none, "", "", "", none⟩,
       ⟨none, none, some ⟨"/data"⟩⟩⟩ =
      .ok (mergeMeta [("vol_type", Json.str "hostpath"), ("vol_id", Json.str "/data")]
        [("name", Json.str "pv1")]) :=
  ⟨encode_metadata_precedence.1 _ _ _ _ rfl,
   encode_metadata_precedence.2 _ _ _ rfl rfl⟩

/-- C4 (code bug): the compact-list round trip fails on the empty list —
`ToString` of the empty list gives the empty string, but `InitFromString`
of the empty string returns the `couldn\x27t parse ()` error instead of the
empty list, because `strings.Split("", ",")` is `[""]` and the
`len(modes) == 0` branch is dead. -/
theorem compactList_empty_roundTrip_fails :
    AccessModes.toString ⟨[]⟩ = .ok "" ∧
    AccessModes.initFromString "" = .error ⟨.invalidValue, "couldn\x27t parse ()"⟩ :=
  ⟨rfl, rfl⟩

/-- C5 (code bug): `InitFromString` on the empty input string does not
yield an empty list — the comma split of the empty string is the
singleton list holding the empty token, which the token switch rejects. -/
theorem initFromString_empty_fails :
    goSplitS ',' "" = [""] ∧
    AccessModes.initFromString "" = .error ⟨.invalidValue, "couldn\x27t parse ()"⟩ :=
  ⟨rfl, rfl⟩

/-- C6 (amended): when a sub-decode fails, `PersistentVolume.UnmarshalJSON`
does not return the sub-error itself but a fresh invalid-value-for-type
error whose message embeds the sub-error message after a fixed prefix
(`couldn\x27t unmarshal volume source from JSON: ` respectively
`couldn\x27t unmarshal metadata from JSON: `), so the original cause is
preserved only inside the message text. -/
theorem decode_wraps_subErrors (data : Json) :
    (∀ e : Err, PersistentVolumeSource.unmarshalJSON data = .error e →
      PersistentVolume.unmarshalJSON data =
        .error ⟨.invalidValueForType,
          "couldn\x27t unmarshal volume source from JSON: " ++ e.msg⟩) ∧
    (∀ (src : PersistentVolumeSource) (e : Err),
      PersistentVolumeSource.unmarshalJSON data = .ok src →
      PersistentVolumeMeta.unmarshalJSON data = .error e →
      PersistentVolume.unmarshalJSON data =
        .error ⟨.invalidValueForType,
          "couldn\x27t unmarshal metadata from JSON: " ++ e.msg⟩) := by
  constructor
  · intro e he
    simp only [PersistentVolume.unmarshalJSON, he]
  · intro src e hs hm
    simp only [PersistentVolume.unmarshalJSON, hs, hm]

/-- C6 witness: the wrapping evaluated on a failing source sub-decode
(missing tag) and on a failing metadata sub-decode (bad mode token). -/
theorem decode_wraps_subErrors_witness :
    PersistentVolume.unmarshalJSON (.obj [("vol_type", Json.null)]) =
      .error ⟨.invalidValueForType,
        "couldn\x27t unmarshal volume source from JSON: missing or invalid field (vol_type)"⟩ ∧
    PersistentVolume.unmarshalJSON
      (.obj [("vol_type", Json.str "hostpath"), ("vol_id", Json.str "/data"),
             ("modes", Json.str "bogus")]) =
      .error ⟨.invalidValueForType,
        "couldn\x27t unmarshal metadata from JSON: couldn\x27t parse (bogus)"⟩ :=
  ⟨(decode_wraps_subErrors (.obj [("vol_type", Json.null)])).1
      ⟨.invalidValue, "missing or invalid field (vol_type)"⟩ rfl,
   (decode_wraps_subErrors
      (.obj [("vol_type", Json.str "hostpath"), ("vol_id", Json.str "/data"),
             ("modes", Json.str "bogus")])).2
      ⟨none, none, some ⟨"/data"⟩⟩ ⟨.invalidValue, "couldn\x27t parse (bogus)"⟩ rfl rfl⟩

/-- C6 counterexample: the claim as stated is false — on a failing source
sub-decode the error returned by the resource decode differs from the
sub-error (different kind and different message), so the sub-error is not
forwarded unwrapped and unmodified. -/
theorem decode_subError_cex :
    PersistentVolumeSource.unmarshalJSON (.obj [("vol_type", Json.null)]) =
      .error ⟨.invalidValue, "missing or invalid field (vol_type)"⟩ ∧
    PersistentVolume.unmarshalJSON (.obj [("vol_type", Json.null)]) =
      .error ⟨.invalidValueForType,
        "couldn\x27t unmarshal volume source from JSON: missing or invalid field (vol_type)"⟩ ∧
    (⟨.invalidValueForType,
        "couldn\x27t unmarshal volume source from JSON: missing or invalid field (vol_type)"⟩ : Err) ≠
      ⟨.invalidValue, "missing or invalid field (vol_type)"⟩ :=
  ⟨rfl, rfl, by decide⟩

/-- C7: tag dispatch on decode is a pure lookup — for any tag that is none
of the three registered ones, `PersistentVolumeSource.Unmarshal` leaves
the receiver unchanged (no fallback variant is populated) and fails with
the unsupported-volume-type error carrying the tag value. -/
theorem decode_unsupported_variant (v : PersistentVolumeSource) (obj : Obj)
    (volType : String) (selector : List String)
    (h1 : volType ≠ VolumeTypeGcePD) (h2 : volType ≠ VolumeTypeAwsEBS)
    (h3 : volType ≠ VolumeTypeHostPath) :
    PersistentVolumeSource.unmarshal v obj volType selector =
      (v, some ⟨.invalidValue, "unsupported volume type (" ++ volType ++ ")"⟩) := by
  simp [PersistentVolumeSource.unmarshal, h1, h2, h3]

/-- C7 witness: the unknown tag `nfs` evaluated through the dispatch. -/
theorem decode_unsupported_variant_witness :
    PersistentVolumeSource.unmarshal ⟨none, none, none⟩ [] "nfs" [] =
      (⟨none, none, none⟩, some ⟨.invalidValue, "unsupported volume type (nfs)"⟩) :=
  decode_unsupported_variant ⟨none, none, none⟩ [] "nfs" []
    (by decide) (by decide) (by decide)

/-- C8: for every input string containing a token that is not one of the
three known symbols, `InitFromString` fails with the invalid-value error
whose message is `couldn\x27t parse (s)`, which contains both the original
string and (as part of it) the unparsed token. -/
theorem initFromString_malformed_token (s t : String)
    (hmem : t ∈ goSplitS ',' s) (hbad : ¬ isModeTok t) :
    AccessModes.initFromString s =
      .error ⟨.invalidValue, "couldn\x27t parse (" ++ s ++ ")"⟩ ∧
    substrOf s.data ("couldn\x27t parse (" ++ s ++ ")").data ∧
    substrOf t.data ("couldn\x27t parse (" ++ s ++ ")").data := by
  have hsdata : ("couldn\x27t parse (" ++ s ++ ")").data =
      "couldn\x27t parse (".data ++ (s.data ++ ")".data) := rfl
  have hsub_s : substrOf s.data ("couldn\x27t parse (" ++ s ++ ")").data := by
    exact ⟨"couldn\x27t parse (".data, ")".data, by rw [hsdata, List.append_assoc]⟩
  refine ⟨?_, hsub_s, ?_⟩
  · simp only [AccessModes.initFromString]
    rw [if_neg (goSplitS_ne_nil ',' s)]
    exact parseModes_err s _ ⟨t, hmem, hbad⟩
  · obtain ⟨u, hu, rfl⟩ := List.mem_map.mp hmem
    have ht : substrOf (String.mk u).data s.data := goSplit_mem_substr ',' s.data u hu
    exact substrOf_trans _ _ _ ht hsub_s

/-- C8 witness: `fromString("ro,bogus")` evaluated — the error names
`bogus` (inside the original string carried by the message). -/
theorem initFromString_malformed_token_witness :
    AccessModes.initFromString "ro,bogus" =
      .error ⟨.invalidValue, "couldn\x27t parse (ro,bogus)"⟩ ∧
    substrOf "ro,bogus".data "couldn\x27t parse (ro,bogus)".data ∧
    substrOf "bogus".data "couldn\x27t parse (ro,bogus)".data :=
  initFromString_malformed_token "ro,bogus" "bogus" (by decide) (by simp [isModeTok])

/-- C9: decode through the tag dispatch is not atomic on error — for each
registered tag, when the variant decoder fails (starting from the freshly
allocated zero variant), `PersistentVolumeSource.Unmarshal` reports that
very error while the receiver arm for the tag has already been set to the
(possibly partially populated) variant state. -/
theorem unmarshal_nonatomic (v : PersistentVolumeSource) (obj : Obj)
    (selector : List String) (e : Err) :
    ((GcePDVolume.unmarshal ⟨"", none⟩ obj selector).2 = some e →
      (PersistentVolumeSource.unmarshal v obj VolumeTypeGcePD selector).2 = some e ∧
      (PersistentVolumeSource.unmarshal v obj VolumeTypeGcePD selector).1.gcePD =
        some (GcePDVolume.unmarshal ⟨"", none⟩ obj selector).1) ∧
    ((AwsEBSVolume.unmarshal ⟨""⟩ obj selector).2 = some e →
      (PersistentVolumeSource.unmarshal v obj VolumeTypeAwsEBS selector).2 = some e ∧
      (PersistentVolumeSource.unmarshal v obj VolumeTypeAwsEBS selector).1.awsEBS =
        some (AwsEBSVolume.unmarshal ⟨""⟩ obj selector).1) ∧
    ((HostPathVolume.unmarshal ⟨""⟩ selector).2 = some e →
      (PersistentVolumeSource.unmarshal v obj VolumeTypeHostPath selector).2 = some e ∧
      (PersistentVolumeSource.unmarshal v obj VolumeTypeHostPath selector).1.hostPath =
        some (HostPathVolume.unmarshal ⟨""⟩ selector).1) := by
  refine ⟨?_, ?_, ?_⟩
  · intro h
    rcases hu : GcePDVolume.unmarshal ⟨"", none⟩ obj selector with ⟨g', e'⟩
    rw [hu] at h
    constructor <;>
      simp [PersistentVolumeSource.unmarshal, hu, h,
        VolumeTypeGcePD, VolumeTypeAwsEBS, VolumeTypeHostPath]
  · intro h
    rcases hu : AwsEBSVolume.unmarshal ⟨""⟩ obj selector with ⟨a', e'⟩
    rw [hu] at h
    constructor <;>
      simp [PersistentVolumeSource.unmarshal, hu, h,
        VolumeTypeGcePD, VolumeTypeAwsEBS, VolumeTypeHostPath]
  · intro h
    rcases hu : HostPathVolume.unmarshal ⟨""⟩ selector with ⟨h', e'⟩
    rw [hu] at h
    constructor <;>
      simp [PersistentVolumeSource.unmarshal, hu, h,
        VolumeTypeGcePD, VolumeTypeAwsEBS, VolumeTypeHostPath]

/-- C9 witness: a GCE-PD decode that fails on the non-string `fs` field
AFTER storing the disk name — the dispatch returns the error while the arm
holds the partially populated variant. -/
theorem unmarshal_nonatomic_witness :
    (PersistentVolumeSource.unmarshal ⟨none, none, none⟩
      [("fs", Json.num 1)] VolumeTypeGcePD ["pd1"]).2 =
      some ⟨.invalidValue, "expected string for key \x22fs\x22"⟩ ∧
    (PersistentVolumeSource.unmarshal ⟨none, none, none⟩
      [("fs", Json.num 1)] VolumeTypeGcePD ["pd1"]).1.gcePD = some ⟨"pd1", none⟩ :=
  (unmarshal_nonatomic ⟨none, none, none⟩ [("fs", Json.num 1)] ["pd1"]
    ⟨.invalidValue, "expected string for key \x22fs\x22"⟩).1 rfl

/-- C10: a flat object carrying a non-string value under `vol_id` makes
`PersistentVolumeSource.UnmarshalJSON` fail with the
expected-string-for-vol_id error, whatever else the object contains — in
particular before the type tag is read or any variant decoder runs. -/
theorem volId_requires_string (o : Obj) (j : Json)
    (hget : Obj.get o "vol_id" = some j) (hnotstr : ∀ s, j ≠ Json.str s) :
    PersistentVolumeSource.unmarshalJSON (.obj o) =
      .error ⟨.invalidValue, "expected string for key \x22vol_id\x22"⟩ := by
  simp only [PersistentVolumeSource.unmarshalJSON, hget]

/-- C10 witness: a numeric `vol_id` next to a perfectly valid tag still
fails with the vol_id error, showing the tag is not consulted. -/
theorem volId_requires_string_witness :
    PersistentVolumeSource.unmarshalJSON
      (.obj [("vol_type", Json.str "hostpath"), ("vol_id", Json.num 3)]) =
      .error ⟨.invalidValue, "expected string for key \x22vol_id\x22"⟩ :=
  volId_requires_string [("vol_type", Json.str "hostpath"), ("vol_id", Json.num 3)]
    (Json.num 3) rfl (fun _ h => Json.noConfusion h)
